import Mathlib

/-!
Shallow embedding of the timeline clip model, playback synchronizer, caption
layer and export compositor of the quick-creator-studio video editor
(components/VideoEditor.tsx multi-track version, components/MultiTrackTimeline
time-based version, components/CaptionOverlay.tsx).

Times, durations and percentage coordinates are JavaScript numbers in the
source; they are modelled as rationals.  Opaque browser objects (File handles,
HTMLMediaElement internals) are dropped or reduced to the fields the editor
reads.  Effectful handlers become pure state transformers on an explicit
editor-state record.
-/

namespace QuickCreatorStudio

/-- Media kind of a file placed on a track, from the MediaFile TypeScript
interface (the type field). -/
inductive MediaKind where
  | video
  | audio
  deriving DecidableEq, Repr

/-- Track kind, from the Track TypeScript interface (the type field). -/
inductive TrackKind where
  | video
  | audio
  | subtitle
  deriving DecidableEq, Repr

/-- One placed clip, from the MediaFile interface of VideoEditor.tsx
(multi-track version): id, type, url, duration (source duration set from
loadedmetadata), name, startTime (timeline start), clipDuration, trackPosition.
The opaque File handle is omitted. -/
structure MediaFile where
  id : String
  kind : MediaKind
  url : String
  duration : ℚ
  name : String
  startTime : ℚ
  clipDuration : ℚ
  trackPosition : ℚ
  deriving DecidableEq, Repr

/-- A track: id, kind and insertion-ordered items, from the Track interface. -/
structure Track where
  id : String
  kind : TrackKind
  items : List MediaFile
  deriving DecidableEq, Repr

/-- A caption record, from the Caption interface of VideoEditor.tsx. -/
structure Caption where
  id : String
  text : String
  startTime : ℚ
  endTime : ℚ
  x : ℚ
  y : ℚ
  deriving DecidableEq, Repr

/-- An ephemeral audio player created by playMultipleTracks via new Audio:
the fields the editor writes (currentTime, volume) and whether play was
called on it. -/
structure AudioElement where
  url : String
  currentTime : ℚ
  volume : ℚ
  playing : Bool
  deriving DecidableEq, Repr

/-- Selected aspect format, from the format state of VideoEditor.tsx. -/
inductive Format where
  | wide
  | vertical
  deriving DecidableEq, Repr

/-- The editor state the modelled handlers read and write: tracks, media
library, captions, published current time, timeline duration state, playing
flag, the loaded video source and its playing flag, the live audio elements,
master volume (percent) and aspect format. -/
structure EditorState where
  tracks : List Track
  mediaFiles : List MediaFile
  captions : List Caption
  currentTime : ℚ
  duration : ℚ
  isPlaying : Bool
  videoSrc : Option String
  videoPlaying : Bool
  activeAudioElements : List AudioElement
  volume : ℚ
  format : Format
  deriving DecidableEq, Repr

/-- The running maximum step of calculateTimelineDuration: if endTime is
greater than the accumulator it replaces it. -/
def endTimeStep (m : ℚ) (item : MediaFile) : ℚ :=
  if item.startTime + item.duration > m then item.startTime + item.duration else m

/-- calculateTimelineDuration from VideoEditor.tsx: folds
item.startTime + item.duration over every item of every track starting from 0,
then takes the maximum with 60 (minimum 60 seconds).  Note the source reads
item.duration, the source-asset duration, not item.clipDuration. -/
def calculateTimelineDuration (tracks : List Track) : ℚ :=
  let maxEndTime := tracks.foldl (fun acc t => t.items.foldl endTimeStep acc) 0
  max maxEndTime 60

/-- Modelled from the spec words for comparison with
calculateTimelineDuration: the maximum of timelineStart + clipDuration over
all clips, floored to a minimum of 60 seconds. -/
def specTotalDuration (tracks : List Track) : ℚ :=
  let maxEndTime :=
    tracks.foldl
      (fun acc t =>
        t.items.foldl (fun m i => max m (i.startTime + i.clipDuration)) acc) 0
  max maxEndTime 60

/-- The track-insertion step of handleFiles in VideoEditor.tsx: the new media
file is appended to the items of every track whose kind matches the kind of
the file. -/
def addMediaToTracks (tracks : List Track) (item : MediaFile) : List Track :=
  tracks.map fun track =>
    if track.kind = (match item.kind with
      | MediaKind.video => TrackKind.video
      | MediaKind.audio => TrackKind.audio) then
      { track with items := track.items ++ [item] }
    else track

/-- The audio element created for one audio item in playMultipleTracks:
new Audio(item.url); currentTime is set to item.startTime (the timeline start,
the source quirk kept as written); volume is set to volume / 100; play is
called. -/
def mkAudioElement (volume : ℚ) (item : MediaFile) : AudioElement :=
  { url := item.url
    currentTime := item.startTime
    volume := volume / 100
    playing := true }

/-- playMultipleTracks from VideoEditor.tsx: stops and discards the previous
audio elements, loads and plays the first item of the first video track when
one exists, and creates and plays one audio element per item of every audio
track, with no regard to the current time or to the clip windows. -/
def playMultipleTracks (s : EditorState) : EditorState :=
  let videoTracks := s.tracks.filter (fun t => t.kind = TrackKind.video)
  let audioTracks := s.tracks.filter (fun t => t.kind = TrackKind.audio)
  let videoAction :=
    match videoTracks.head? with
    | some t =>
        match t.items.head? with
        | some firstVideoItem => some firstVideoItem.url
        | none => none
    | none => none
  let newAudioElements :=
    audioTracks.flatMap fun track =>
      track.items.map (mkAudioElement s.volume)
  { s with
      videoSrc := match videoAction with
        | some url => some url
        | none => s.videoSrc
      videoPlaying := match videoAction with
        | some _ => true
        | none => s.videoPlaying
      activeAudioElements := newAudioElements }

/-- pauseMultipleTracks from VideoEditor.tsx: pauses the video element and all
active audio elements. -/
def pauseMultipleTracks (s : EditorState) : EditorState :=
  { s with
      videoPlaying := false
      activeAudioElements :=
        s.activeAudioElements.map fun a => { a with playing := false } }

/-- handleTimeUpdate from VideoEditor.tsx: publishes the video elements
current time as the editor current time; nothing else is touched, no media
element is paused. -/
def handleTimeUpdate (s : EditorState) (videoElementTime : ℚ) : EditorState :=
  { s with currentTime := videoElementTime }

/-- The resize-end branch of handleMouseMove in MultiTrackTimeline (time-based
version): newDuration = max(1, initial clipDuration + deltaTime), then
clipDuration becomes min(newDuration, min(duration - startTime, source
duration)) where duration is the timeline duration prop.  Applied to one drag
event started from rest, so the recorded initial duration is the items
current clipDuration. -/
def handleMouseMoveResizeEnd (timelineDuration deltaTime : ℚ)
    (item : MediaFile) : MediaFile :=
  let minDuration : ℚ := 1
  let newDuration := max minDuration (item.clipDuration + deltaTime)
  let maxDuration := timelineDuration - item.startTime
  { item with clipDuration := min newDuration (min maxDuration item.duration) }

/-- The resize-start branch of handleMouseMove in MultiTrackTimeline
(time-based version): newStartTime = max(0, initial startTime + deltaTime);
the start-time change applied to the duration is capped at initial
clipDuration - 1; clipDuration becomes max(1, initial clipDuration - capped
change); trackPosition is recomputed from the new start time.  Applied to one
drag event started from rest. -/
def handleMouseMoveResizeStart (timelineDuration deltaTime : ℚ)
    (item : MediaFile) : MediaFile :=
  let newStartTime := max 0 (item.startTime + deltaTime)
  let maxStartTimeChange := item.clipDuration - 1
  let actualStartTimeChange := min deltaTime maxStartTimeChange
  let newDuration := item.clipDuration - actualStartTimeChange
  { item with
      startTime := newStartTime
      clipDuration := max 1 newDuration
      trackPosition := newStartTime / timelineDuration * 100 }

/-- The degenerate subtitle-track clip addCaption builds from a caption:
id reused, kind audio (placeholder in the source), empty url, duration and
clipDuration both endTime - startTime, name the caption text, startTime the
caption start, trackPosition startTime / duration * 100 computed against the
timeline duration at creation time. -/
def captionMediaFile (timelineDuration : ℚ) (c : Caption) : MediaFile :=
  { id := c.id
    kind := MediaKind.audio
    url := ""
    duration := c.endTime - c.startTime
    name := c.text
    startTime := c.startTime
    clipDuration := c.endTime - c.startTime
    trackPosition := c.startTime / timelineDuration * 100 }

/-- addCaption from VideoEditor.tsx: builds a caption starting at the current
time lasting 2 seconds at position (50, 80), appends it to the caption list
and appends its clip projection to the items of every subtitle track.  The
generated id (Date.now in the source) is a parameter. -/
def addCaption (newId : String) (s : EditorState) : EditorState :=
  let newCaption : Caption :=
    { id := newId
      text := "New Caption"
      startTime := s.currentTime
      endTime := s.currentTime + 2
      x := 50
      y := 80 }
  { s with
      captions := s.captions ++ [newCaption]
      tracks := s.tracks.map fun track =>
        if track.kind = TrackKind.subtitle then
          { track with
              items := track.items ++ [captionMediaFile s.duration newCaption] }
        else track }

/-- A Partial Caption update record, from the updates argument of
onCaptionUpdate: each field is overridden when present. -/
structure CaptionUpdates where
  text : Option String := none
  startTime : Option ℚ := none
  endTime : Option ℚ := none
  x : Option ℚ := none
  y : Option ℚ := none
  deriving DecidableEq, Repr

/-- The object-spread merge cap with updates. -/
def applyCaptionUpdates (u : CaptionUpdates) (c : Caption) : Caption :=
  { c with
      text := u.text.getD c.text
      startTime := u.startTime.getD c.startTime
      endTime := u.endTime.getD c.endTime
      x := u.x.getD c.x
      y := u.y.getD c.y }

/-- The onCaptionUpdate handler passed to CaptionOverlay in VideoEditor.tsx:
maps the update over the caption list, merging into the caption with the
matching id; the tracks (and the subtitle-track clip projection) are not
touched. -/
def onCaptionUpdate (s : EditorState) (id : String) (u : CaptionUpdates) :
    EditorState :=
  { s with
      captions := s.captions.map fun cap =>
        if cap.id = id then applyCaptionUpdates u cap else cap }

/-- handleItemRemoval from VideoEditor.tsx: filters the item out of the items
of the track with the given id, filters the media file list and the caption
list by the item id, and recomputes the timeline duration.  The recomputation
runs in a deferred callback whose calculateTimelineDuration closes over the
track list captured before the removal, so the stored duration is computed
from the pre-removal tracks. -/
def handleItemRemoval (s : EditorState) (trackId itemId : String) :
    EditorState :=
  { s with
      tracks := s.tracks.map fun track =>
        if track.id = trackId then
          { track with items := track.items.filter (fun item => item.id ≠ itemId) }
        else track
      mediaFiles := s.mediaFiles.filter (fun file => file.id ≠ itemId)
      captions := s.captions.filter (fun caption => caption.id ≠ itemId)
      duration := calculateTimelineDuration s.tracks }

/-- visibleCaptions from CaptionOverlay.tsx: the captions whose window
contains the current time, both endpoints inclusive. -/
def visibleCaptions (captions : List Caption) (currentTime : ℚ) :
    List Caption :=
  captions.filter fun caption =>
    currentTime ≥ caption.startTime ∧ currentTime ≤ caption.endTime

/-- Canvas size chosen by exportVideo for each format: 1920x1080 for 16:9,
1080x1920 for 9:16. -/
def formatCanvasSize (f : Format) : ℕ × ℕ :=
  match f with
  | Format.wide => (1920, 1080)
  | Format.vertical => (1080, 1920)

/-- The destination rectangle renderFrame computes for the video frame:
videoAspect = videoWidth / videoHeight, canvasAspect = width / height; when
the video is wider than the canvas the frame spans the full canvas width and
is centered vertically, otherwise it spans the full canvas height and is
centered horizontally. -/
structure DrawRect where
  drawX : ℚ
  drawY : ℚ
  drawWidth : ℚ
  drawHeight : ℚ
  deriving DecidableEq, Repr

/-- The scaling branch of renderFrame in exportVideo. -/
def renderFrameDrawRect (videoWidth videoHeight canvasWidth canvasHeight : ℚ) :
    DrawRect :=
  let videoAspect := videoWidth / videoHeight
  let canvasAspect := canvasWidth / canvasHeight
  if videoAspect > canvasAspect then
    { drawWidth := canvasWidth
      drawHeight := canvasWidth / videoAspect
      drawX := 0
      drawY := (canvasHeight - canvasWidth / videoAspect) / 2 }
  else
    { drawHeight := canvasHeight
      drawWidth := canvasHeight * videoAspect
      drawX := (canvasWidth - canvasHeight * videoAspect) / 2
      drawY := 0 }

/-- Outcome of an exportVideo call. -/
inductive ExportOutcome where
  | preconditionFailed
  | started
  deriving DecidableEq, Repr

/-- Resource and effect summary of one exportVideo run: which outcome the run
reaches, whether the canvas is allocated and at what size, how many offscreen
video and audio elements are created, whether the audio context is created
and how many source plus gain nodes are built, whether the recorder is
created, how many render intervals are scheduled, whether a download is
triggered at the end, and the final isExporting flag. -/
structure ExportRun where
  outcome : ExportOutcome
  canvasAllocated : Bool
  canvasWidth : ℕ
  canvasHeight : ℕ
  offscreenVideoElements : ℕ
  offscreenAudioElements : ℕ
  audioContextCreated : Bool
  audioGraphNodes : ℕ
  recorderCreated : Bool
  intervalsScheduled : ℕ
  downloadTriggered : Bool
  isExportingAfter : Bool
  deriving DecidableEq, Repr

/-- Number of audio items across the non-empty audio tracks, matched by the
audioSources array built in exportVideo. -/
def exportAudioItemCount (tracks : List Track) : ℕ :=
  ((tracks.filter fun t => t.kind = TrackKind.audio ∧ t.items ≠ []).flatMap
    (fun t => t.items)).length

/-- exportVideo from VideoEditor.tsx, summarized as the resources and effects
of the run.  The precondition check (at least one video track with items) is
the first step after setting isExporting; when it fails the function alerts,
clears isExporting and returns before the canvas, the offscreen media
elements, the audio context and graph, the recorder or the render interval
exist, and no download is produced.  Otherwise the run allocates the canvas
at the format size, one offscreen video element, one audio element plus one
media-element-source node and one gain node per audio item, a recorder and
one render interval, and triggers a single download when the recorder stops. -/
def exportVideo (s : EditorState) : ExportRun :=
  let videoTracks := s.tracks.filter fun t =>
    t.kind = TrackKind.video ∧ t.items ≠ []
  if videoTracks = [] then
    { outcome := ExportOutcome.preconditionFailed
      canvasAllocated := false
      canvasWidth := 0
      canvasHeight := 0
      offscreenVideoElements := 0
      offscreenAudioElements := 0
      audioContextCreated := false
      audioGraphNodes := 0
      recorderCreated := false
      intervalsScheduled := 0
      downloadTriggered := false
      isExportingAfter := false }
  else
    let size := formatCanvasSize s.format
    let audioItems := exportAudioItemCount s.tracks
    { outcome := ExportOutcome.started
      canvasAllocated := true
      canvasWidth := size.1
      canvasHeight := size.2
      offscreenVideoElements := 1
      offscreenAudioElements := audioItems
      audioContextCreated := true
      audioGraphNodes := 2 * audioItems
      recorderCreated := true
      intervalsScheduled := 1
      downloadTriggered := true
      isExportingAfter := false }

/-- Whether some video track has at least one item, the spec-facing phrasing
of the export precondition. -/
def hasNonemptyVideoTrack (s : EditorState) : Bool :=
  s.tracks.any fun t => t.kind = TrackKind.video ∧ t.items ≠ []

/-! Helper lemmas about the running-maximum folds of
calculateTimelineDuration. -/

/-- The end time of a clip as calculateTimelineDuration reads it: timeline
start plus source duration. -/
def sourceEndTime (i : MediaFile) : ℚ := i.startTime + i.duration

/-- All clip end times of a track list, in order. -/
def allEndTimes (tracks : List Track) : List ℚ :=
  tracks.flatMap fun t => t.items.map sourceEndTime

theorem endTimeStep_eq_max (m : ℚ) (i : MediaFile) :
    endTimeStep m i = max m (sourceEndTime i) := by
  unfold endTimeStep sourceEndTime
  by_cases h : i.startTime + i.duration > m
  · rw [if_pos h, max_eq_right h.le]
  · rw [if_neg h, max_eq_left (not_lt.mp h)]

theorem foldl_endTimeStep_eq (l : List MediaFile) (a : ℚ) :
    l.foldl endTimeStep a = (l.map sourceEndTime).foldl max a := by
  rw [List.foldl_map]
  induction l generalizing a with
  | nil => rfl
  | cons i l ih => simp only [List.foldl_cons, endTimeStep_eq_max, ih]

theorem calculateTimelineDuration_eq (tracks : List Track) :
    calculateTimelineDuration tracks =
      max ((allEndTimes tracks).foldl max 0) 60 := by
  unfold calculateTimelineDuration allEndTimes
  induction tracks with
  | nil => rfl
  | cons t ts ih =>
      simp only [List.foldl_cons, List.flatMap_cons, List.foldl_append,
        foldl_endTimeStep_eq]
      clear ih
      generalize (t.items.map sourceEndTime).foldl max 0 = b
      induction ts generalizing b with
      | nil => rfl
      | cons u us ih2 =>
          simp only [List.foldl_cons, List.flatMap_cons, List.foldl_append,
            foldl_endTimeStep_eq, ih2]

theorem le_foldl_max_init (l : List ℚ) (a : ℚ) : a ≤ l.foldl max a := by
  induction l generalizing a with
  | nil => exact le_refl a
  | cons x l ih => exact le_trans (le_max_left a x) (ih (max a x))

theorem le_foldl_max_of_mem {x : ℚ} {l : List ℚ} (h : x ∈ l) (a : ℚ) :
    x ≤ l.foldl max a := by
  induction l generalizing a with
  | nil => cases h
  | cons y l ih =>
      rcases List.mem_cons.mp h with rfl | hmem
      · exact le_trans (le_max_right a x) (le_foldl_max_init l (max a x))
      · exact ih hmem (max a y)

theorem foldl_max_cases (l : List ℚ) (a : ℚ) :
    l.foldl max a = a ∨ ∃ x ∈ l, l.foldl max a = x := by
  induction l generalizing a with
  | nil => exact Or.inl rfl
  | cons y l ih =>
      rcases ih (max a y) with h | ⟨x, hx, hfx⟩
      · simp only [List.foldl_cons] at *
        rcases max_cases a y with ⟨he, _⟩ | ⟨he, _⟩
        · exact Or.inl (h.trans he)
        · exact Or.inr ⟨y, List.mem_cons_self y l, h.trans he⟩
      · exact Or.inr ⟨x, List.mem_cons_of_mem y hx, hfx⟩

theorem foldl_max_le {l : List ℚ} {a c : ℚ} (ha : a ≤ c)
    (h : ∀ x ∈ l, x ≤ c) : l.foldl max a ≤ c := by
  induction l generalizing a with
  | nil => exact ha
  | cons y l ih =>
      exact ih (max_le ha (h y (List.mem_cons_self y l)))
        (fun x hx => h x (List.mem_cons_of_mem y hx))

theorem mem_allEndTimes_addMediaToTracks {e : ℚ} {tracks : List Track}
    (item : MediaFile) (h : e ∈ allEndTimes tracks) :
    e ∈ allEndTimes (addMediaToTracks tracks item) := by
  unfold allEndTimes addMediaToTracks at *
  rcases List.mem_flatMap.mp h with ⟨t, ht, he⟩
  refine List.mem_flatMap.mpr ?_
  by_cases hk : t.kind = (match item.kind with
      | MediaKind.video => TrackKind.video
      | MediaKind.audio => TrackKind.audio)
  · refine ⟨{ t with items := t.items ++ [item] }, ?_, ?_⟩
    · refine List.mem_map.mpr ⟨t, ht, ?_⟩
      rw [if_pos hk]
    · simp only [List.map_append, List.mem_append]
      exact Or.inl he
  · refine ⟨t, ?_, he⟩
    refine List.mem_map.mpr ⟨t, ht, ?_⟩
    rw [if_neg hk]

/-- Claim C1 counterexample clip: source duration 100, trimmed clipDuration
1, starting at 0. -/
def c1CexItem : MediaFile :=
  { id := "m1", kind := MediaKind.video, url := "v.mp4",
    duration := 100, name := "v", startTime := 0,
    clipDuration := 1, trackPosition := 0 }

/-- Claim C1 counterexample track holding the trimmed clip. -/
def c1CexTrack : Track :=
  { id := "video-track", kind := TrackKind.video, items := [c1CexItem] }

/-- Claim C1 counterexample state: one video track holding one clip whose
source duration is 100 but whose trimmed clipDuration is 1. -/
def c1CexTracks : List Track := [c1CexTrack]

/-- Claim C1 is false as stated: calculateTimelineDuration reads the source
duration, not the trimmed clipDuration, so on a clip with source duration 100
trimmed to clipDuration 1 it returns 100 while the claimed formula (maximum
of timelineStart + clipDuration floored at 60) gives 60. -/
theorem c1_counterexample :
    calculateTimelineDuration c1CexTracks = 100 ∧
      specTotalDuration c1CexTracks = 60 ∧
      calculateTimelineDuration c1CexTracks ≠ specTotalDuration c1CexTracks := by
  refine ⟨?_, ?_, ?_⟩ <;>
    norm_num [calculateTimelineDuration, specTotalDuration, c1CexTracks,
      c1CexTrack, c1CexItem, endTimeStep]

/-- Claim C1, amended: computeTotalDuration returns the maximum over all
clips on all tracks of (timelineStart + sourceDuration) — the untrimmed
source duration, not clipDuration — floored to a minimum of 60 seconds; in
particular it never returns a value below 60 and is monotonic non-decreasing
as clips are added. -/
theorem c1_total_duration (tracks : List Track) :
    60 ≤ calculateTimelineDuration tracks ∧
      (∀ t ∈ tracks, ∀ i ∈ t.items,
        i.startTime + i.duration ≤ calculateTimelineDuration tracks) ∧
      (calculateTimelineDuration tracks = 60 ∨
        ∃ t ∈ tracks, ∃ i ∈ t.items,
          calculateTimelineDuration tracks = i.startTime + i.duration) ∧
      (∀ item, calculateTimelineDuration tracks ≤
        calculateTimelineDuration (addMediaToTracks tracks item)) := by
  refine ⟨?_, ?_, ?_, ?_⟩
  · rw [calculateTimelineDuration_eq]; exact le_max_right _ _
  · intro t ht i hi
    rw [calculateTimelineDuration_eq]
    refine le_trans (le_foldl_max_of_mem ?_ 0) (le_max_left _ _)
    exact List.mem_flatMap.mpr ⟨t, ht, List.mem_map.mpr ⟨i, hi, rfl⟩⟩
  · rw [calculateTimelineDuration_eq]
    rcases foldl_max_cases (allEndTimes tracks) 0 with h0 | ⟨e, he, hfe⟩
    · left; rw [h0]; norm_num
    · rcases le_total ((allEndTimes tracks).foldl max 0) 60 with hle | hge
      · left; exact max_eq_right hle
      · right
        rcases List.mem_flatMap.mp he with ⟨t, ht, hmem⟩
        rcases List.mem_map.mp hmem with ⟨i, hi, rfl⟩
        exact ⟨t, ht, i, hi, (max_eq_left hge).trans hfe⟩
  · intro item
    rw [calculateTimelineDuration_eq, calculateTimelineDuration_eq]
    have h60 : (60 : ℚ) ≤ max ((allEndTimes (addMediaToTracks tracks item)).foldl max 0) 60 :=
      le_max_right _ _
    refine max_le (foldl_max_le (by norm_num) ?_) h60
    intro x hx
    exact le_trans
      (le_trans (le_foldl_max_of_mem (mem_allEndTimes_addMediaToTracks item hx) 0)
        (le_max_left _ _))
      (le_refl _)

/-- Closed witness for the amended claim C1 at the counterexample state: the
bound 60, the per-clip upper bound at a concrete member, and monotonicity
under a concrete added clip all hold there. -/
theorem c1_total_duration_witness :
    c1CexTrack ∈ c1CexTracks ∧ c1CexItem ∈ c1CexTrack.items ∧
      60 ≤ calculateTimelineDuration c1CexTracks ∧
      c1CexItem.startTime + c1CexItem.duration ≤
        calculateTimelineDuration c1CexTracks := by
  refine ⟨by simp [c1CexTracks], by simp [c1CexTrack], ?_, ?_⟩
  · exact (c1_total_duration c1CexTracks).1
  · exact (c1_total_duration c1CexTracks).2.1 c1CexTrack
      (by simp [c1CexTracks]) c1CexItem (by simp [c1CexTrack])

/-- Claim C2 scenario clip one: audio clip occupying timeline window 0 to 5. -/
def c2Clip1 : MediaFile :=
  { id := "a1", kind := MediaKind.audio, url := "a1.mp3",
    duration := 10, name := "a1", startTime := 0,
    clipDuration := 5, trackPosition := 0 }

/-- Claim C2 scenario clip two: audio clip occupying timeline window 2 to 8,
inserted after clip one on the same track. -/
def c2Clip2 : MediaFile :=
  { id := "a2", kind := MediaKind.audio, url := "a2.mp3",
    duration := 10, name := "a2", startTime := 2,
    clipDuration := 6, trackPosition := 0 }

/-- Claim C2 scenario track holding the two overlapping clips in insertion
order. -/
def c2Track : Track :=
  { id := "audio-track", kind := TrackKind.audio,
    items := [c2Clip1, c2Clip2] }

/-- Claim C2 scenario state: one audio track holding the two overlapping
clips, playback requested at current time 3. -/
def c2State : EditorState :=
  { tracks := [c2Track]
    mediaFiles := [c2Clip1, c2Clip2]
    captions := []
    currentTime := 3
    duration := 60
    isPlaying := false
    videoSrc := none
    videoPlaying := false
    activeAudioElements := []
    volume := 80
    format := Format.wide }

/-- Claim C2 is false as stated: starting playback at t = 3 with two
overlapping audio clips on one track starts the audio of both clips, not only
of the first-inserted one — playMultipleTracks creates and plays one element
per audio item with no tie-break, so the element built from the second clip
is created and playing. -/
theorem c2_counterexample :
    c2Clip2.startTime ≤ (3 : ℚ) ∧
      (3 : ℚ) < c2Clip2.startTime + c2Clip2.clipDuration ∧
      (playMultipleTracks c2State).activeAudioElements =
        [mkAudioElement 80 c2Clip1, mkAudioElement 80 c2Clip2] ∧
      (mkAudioElement 80 c2Clip2).playing = true := by
  refine ⟨by norm_num [c2Clip2], by norm_num [c2Clip2], ?_, rfl⟩
  rfl

/-- Every audio item of every audio track gets its element into the active
list when playMultipleTracks runs. -/
theorem mem_playMultipleTracks_audio (s : EditorState) (track : Track)
    (item : MediaFile) (htrack : track ∈ s.tracks)
    (hkind : track.kind = TrackKind.audio) (hitem : item ∈ track.items) :
    mkAudioElement s.volume item ∈ (playMultipleTracks s).activeAudioElements := by
  show mkAudioElement s.volume item ∈
    (s.tracks.filter fun t => t.kind = TrackKind.audio).flatMap
      (fun track => track.items.map (mkAudioElement s.volume))
  refine List.mem_flatMap.mpr ⟨track, ?_, List.mem_map.mpr ⟨item, hitem, rfl⟩⟩
  exact List.mem_filter.mpr ⟨htrack, by simp [hkind]⟩

/-- Every element playMultipleTracks creates is playing. -/
theorem playMultipleTracks_all_playing (s : EditorState) :
    ((playMultipleTracks s).activeAudioElements.all fun a => a.playing) =
      true := by
  rw [List.all_eq_true]
  intro a ha
  have ha2 : a ∈ (s.tracks.filter fun t => t.kind = TrackKind.audio).flatMap
      (fun track => track.items.map (mkAudioElement s.volume)) := ha
  rcases List.mem_flatMap.mp ha2 with ⟨t, _, hmem⟩
  rcases List.mem_map.mp hmem with ⟨i, _, rfl⟩
  rfl

/-- Claim C2, amended: playMultipleTracks applies no first-clip-wins
tie-break for audio: it starts one playing audio element for every clip of
every audio track, irrespective of the current time and of overlaps, so with
two overlapping audio clips both elements start; only the video source is
restricted, to the first clip of the first video track. -/
theorem c2_playback_starts_all_audio :
    (∀ (s : EditorState) (track : Track) (item : MediaFile),
        track ∈ s.tracks → track.kind = TrackKind.audio → item ∈ track.items →
          mkAudioElement s.volume item ∈
            (playMultipleTracks s).activeAudioElements) ∧
      (∀ s : EditorState,
        ((playMultipleTracks s).activeAudioElements.all fun a => a.playing) =
          true) :=
  ⟨mem_playMultipleTracks_audio, playMultipleTracks_all_playing⟩

/-- Closed witness for the amended claim C2 at the scenario state: both
overlapping clips get playing elements. -/
theorem c2_playback_starts_all_audio_witness :
    c2Track ∈ c2State.tracks ∧ c2Clip2 ∈ c2Track.items ∧
      mkAudioElement c2State.volume c2Clip2 ∈
        (playMultipleTracks c2State).activeAudioElements := by
  refine ⟨by simp [c2State], by simp [c2Track], ?_⟩
  exact c2_playback_starts_all_audio.1 c2State c2Track c2Clip2
    (by simp [c2State]) rfl (by simp [c2Track])

/-- Claim C3 scenario clip: audio clip on timeline window 0 to 5 with a 10
second source. -/
def c3Clip : MediaFile :=
  { id := "a3", kind := MediaKind.audio, url := "a3.mp3",
    duration := 10, name := "a3", startTime := 0,
    clipDuration := 5, trackPosition := 0 }

/-- Claim C3 scenario state: one audio track holding the clip. -/
def c3State : EditorState :=
  { tracks := [{ id := "audio-track", kind := TrackKind.audio,
                 items := [c3Clip] }]
    mediaFiles := [c3Clip]
    captions := []
    currentTime := 0
    duration := 60
    isPlaying := false
    videoSrc := none
    videoPlaying := false
    activeAudioElements := []
    volume := 80
    format := Format.wide }

/-- Claim C3 is false as stated: after starting playback, a time update
publishing position 6 — past the clip boundary 0 + 5 — leaves the clip
element playing; no per-clip stop timer exists and the tick pauses nothing. -/
theorem c3_counterexample :
    (handleTimeUpdate (playMultipleTracks c3State) 6).currentTime >
        c3Clip.startTime + c3Clip.clipDuration ∧
      (handleTimeUpdate (playMultipleTracks c3State) 6).activeAudioElements =
        [mkAudioElement 80 c3Clip] ∧
      ((handleTimeUpdate (playMultipleTracks c3State) 6).activeAudioElements.all
          fun a => a.playing) = true := by
  refine ⟨by norm_num [handleTimeUpdate, c3Clip], rfl, rfl⟩

/-- Claim C3, amended: playback enforces no clip boundary at all — there is
no per-clip scheduled stop, and time updates only publish the position: after
playMultipleTracks, any sequence of time updates leaves the set of audio
elements unchanged and all of them playing, even when the published position
is past timelineStart + clipDuration. -/
theorem c3_no_boundary_stop (s : EditorState) (ticks : List ℚ) :
    (ticks.foldl handleTimeUpdate (playMultipleTracks s)).activeAudioElements =
        (playMultipleTracks s).activeAudioElements ∧
      ∀ a ∈ (ticks.foldl handleTimeUpdate
          (playMultipleTracks s)).activeAudioElements, a.playing = true := by
  have hpres : ∀ (s0 : EditorState) (ts : List ℚ),
      (ts.foldl handleTimeUpdate s0).activeAudioElements =
        s0.activeAudioElements := by
    intro s0 ts
    induction ts generalizing s0 with
    | nil => rfl
    | cons t ts ih => exact (ih (handleTimeUpdate s0 t)).trans rfl
  refine ⟨hpres _ _, ?_⟩
  intro a ha
  rw [hpres] at ha
  have hall := playMultipleTracks_all_playing s
  rw [List.all_eq_true] at hall
  exact hall a ha

/-- Closed witness for the amended claim C3: at the scenario state, after the
tick publishing position 6, the element of the clip ending at 5 is unchanged
and still playing. -/
theorem c3_no_boundary_stop_witness :
    (([6] : List ℚ).foldl handleTimeUpdate
        (playMultipleTracks c3State)).activeAudioElements =
        (playMultipleTracks c3State).activeAudioElements ∧
      (mkAudioElement 80 c3Clip).playing = true := by
  refine ⟨(c3_no_boundary_stop c3State [6]).1, ?_⟩
  have hl : (([6] : List ℚ).foldl handleTimeUpdate
      (playMultipleTracks c3State)).activeAudioElements =
      [mkAudioElement 80 c3Clip] := rfl
  exact (c3_no_boundary_stop c3State [6]).2 (mkAudioElement 80 c3Clip)
    (hl ▸ List.mem_singleton.mpr rfl)

/-- Claim C4 counterexample clip: a half-second source asset, fully placed. -/
def c4CexItem : MediaFile :=
  { id := "m4", kind := MediaKind.audio, url := "short.mp3",
    duration := 1/2, name := "short", startTime := 0,
    clipDuration := 1/2, trackPosition := 0 }

/-- Claim C4 is false as stated: dragging the end of a clip whose source
lasts only half a second leaves clipDuration at 1/2, below the claimed
minimum of 1 — the source-duration cap (and the timeline-end cap) is applied
after the minimum, so the minimum is not guaranteed. -/
theorem c4_counterexample :
    (handleMouseMoveResizeEnd 60 5 c4CexItem).clipDuration = 1/2 ∧
      ¬ (1 ≤ (handleMouseMoveResizeEnd 60 5 c4CexItem).clipDuration) := by
  constructor <;> norm_num [handleMouseMoveResizeEnd, c4CexItem]

/-- Claim C4, amended: after the resize-end trim only clipDuration changes,
and it is capped both by the source duration and by the remaining timeline
room (timelineDuration - timelineStart); the minimum of 1 second is
guaranteed only when both caps are at least 1 — the source has no
sourceOffset field, so the upper cap is the plain source duration. -/
theorem c4_trim_end (timelineDuration deltaTime : ℚ) (item : MediaFile) :
    (handleMouseMoveResizeEnd timelineDuration deltaTime item).clipDuration ≤
        item.duration ∧
      (handleMouseMoveResizeEnd timelineDuration deltaTime item).clipDuration ≤
        timelineDuration - item.startTime ∧
      (1 ≤ item.duration → 1 ≤ timelineDuration - item.startTime →
        1 ≤ (handleMouseMoveResizeEnd timelineDuration deltaTime
          item).clipDuration) ∧
      (handleMouseMoveResizeEnd timelineDuration deltaTime item).startTime =
        item.startTime ∧
      (handleMouseMoveResizeEnd timelineDuration deltaTime item).id = item.id ∧
      (handleMouseMoveResizeEnd timelineDuration deltaTime item).duration =
        item.duration ∧
      (handleMouseMoveResizeEnd timelineDuration deltaTime item).trackPosition =
        item.trackPosition ∧
      (handleMouseMoveResizeEnd timelineDuration deltaTime item).url =
        item.url ∧
      (handleMouseMoveResizeEnd timelineDuration deltaTime item).name =
        item.name ∧
      (handleMouseMoveResizeEnd timelineDuration deltaTime item).kind =
        item.kind := by
  unfold handleMouseMoveResizeEnd
  refine ⟨?_, ?_, ?_, rfl, rfl, rfl, rfl, rfl, rfl, rfl⟩
  · exact le_trans (min_le_right _ _) (min_le_right _ _)
  · exact le_trans (min_le_right _ _) (min_le_left _ _)
  · intro h1 h2
    exact le_min (le_max_left _ _) (le_min h2 h1)

/-- Closed witness for the amended claim C4 at a clip with a 10 second source
placed at 0 on a 60 second timeline: both caps are at least 1, so the trimmed
clipDuration stays at least 1. -/
theorem c4_trim_end_witness :
    (1 : ℚ) ≤ c2Clip1.duration ∧ (1 : ℚ) ≤ 60 - c2Clip1.startTime ∧
      1 ≤ (handleMouseMoveResizeEnd 60 2 c2Clip1).clipDuration := by
  refine ⟨by norm_num [c2Clip1], by norm_num [c2Clip1], ?_⟩
  exact (c4_trim_end 60 2 c2Clip1).2.2.1 (by norm_num [c2Clip1])
    (by norm_num [c2Clip1])

/-- Claim C5 counterexample clip: a fully placed 10 second source starting at
timeline position 5. -/
def c5CexItem : MediaFile :=
  { id := "m5", kind := MediaKind.video, url := "v5.mp4",
    duration := 10, name := "v5", startTime := 5,
    clipDuration := 10, trackPosition := 0 }

/-- Claim C5 is false as stated: dragging the start left by 5 seconds grows
clipDuration to 15, above the 10 second source duration — there is no
sourceOffset field and no cap of clipDuration against the source, so
sourceOffset + clipDuration ≤ sourceDuration fails under any non-negative
reading of sourceOffset. -/
theorem c5_counterexample :
    (handleMouseMoveResizeStart 60 (-5) c5CexItem).clipDuration = 15 ∧
      c5CexItem.duration = 10 ∧
      ¬ ((handleMouseMoveResizeStart 60 (-5) c5CexItem).clipDuration ≤
        c5CexItem.duration) := by
  refine ⟨?_, rfl, ?_⟩ <;>
    norm_num [handleMouseMoveResizeStart, c5CexItem]

/-- Claim C5, amended: the resize-start trim sets timelineStart to
max(0, timelineStart + delta) and clipDuration to
max(1, clipDuration - min(delta, clipDuration - 1)) — the start shift and the
duration shrink use different caps, there is no sourceOffset field, and
clipDuration is not capped against the source duration (a negative delta can
grow it past the source); afterwards clipDuration ≥ 1 and timelineStart ≥ 0
always hold, and only startTime, clipDuration and trackPosition change. -/
theorem c5_trim_start (timelineDuration deltaTime : ℚ) (item : MediaFile) :
    (handleMouseMoveResizeStart timelineDuration deltaTime item).startTime =
        max 0 (item.startTime + deltaTime) ∧
      (handleMouseMoveResizeStart timelineDuration deltaTime item).clipDuration =
        max 1 (item.clipDuration - min deltaTime (item.clipDuration - 1)) ∧
      1 ≤ (handleMouseMoveResizeStart timelineDuration deltaTime
        item).clipDuration ∧
      0 ≤ (handleMouseMoveResizeStart timelineDuration deltaTime
        item).startTime ∧
      (handleMouseMoveResizeStart timelineDuration deltaTime item).id =
        item.id ∧
      (handleMouseMoveResizeStart timelineDuration deltaTime item).duration =
        item.duration ∧
      (handleMouseMoveResizeStart timelineDuration deltaTime item).url =
        item.url ∧
      (handleMouseMoveResizeStart timelineDuration deltaTime item).name =
        item.name ∧
      (handleMouseMoveResizeStart timelineDuration deltaTime item).kind =
        item.kind := by
  unfold handleMouseMoveResizeStart
  exact ⟨rfl, rfl, le_max_left _ _, le_max_left _ _, rfl, rfl, rfl, rfl, rfl⟩

/-- Claim C6: export with no non-empty video track fails at the precondition
check before any resource is acquired — no canvas, no offscreen media
elements, no audio context or graph nodes, no recorder, no render interval
and no download, and the exporting flag is cleared. -/
theorem c6_export_precondition (s : EditorState)
    (h : hasNonemptyVideoTrack s = false) :
    (exportVideo s).outcome = ExportOutcome.preconditionFailed ∧
      (exportVideo s).canvasAllocated = false ∧
      (exportVideo s).offscreenVideoElements = 0 ∧
      (exportVideo s).offscreenAudioElements = 0 ∧
      (exportVideo s).audioContextCreated = false ∧
      (exportVideo s).audioGraphNodes = 0 ∧
      (exportVideo s).recorderCreated = false ∧
      (exportVideo s).intervalsScheduled = 0 ∧
      (exportVideo s).downloadTriggered = false ∧
      (exportVideo s).isExportingAfter = false := by
  have hnil : (s.tracks.filter fun t =>
      t.kind = TrackKind.video ∧ t.items ≠ []) = [] := by
    rw [List.filter_eq_nil_iff]
    rw [hasNonemptyVideoTrack, List.any_eq_false] at h
    exact h
  unfold exportVideo
  rw [if_pos hnil]
  exact ⟨rfl, rfl, rfl, rfl, rfl, rfl, rfl, rfl, rfl, rfl⟩

/-- Claim C6 witness state: the three standard tracks, all empty. -/
def c6State : EditorState :=
  { tracks := [{ id := "video-track", kind := TrackKind.video, items := [] },
               { id := "audio-track", kind := TrackKind.audio, items := [] },
               { id := "subtitle-track", kind := TrackKind.subtitle, items := [] }]
    mediaFiles := []
    captions := []
    currentTime := 0
    duration := 60
    isPlaying := false
    videoSrc := none
    videoPlaying := false
    activeAudioElements := []
    volume := 80
    format := Format.wide }

/-- Closed witness for claim C6 at the all-empty editor state. -/
theorem c6_export_precondition_witness :
    hasNonemptyVideoTrack c6State = false ∧
      (exportVideo c6State).outcome = ExportOutcome.preconditionFailed ∧
      (exportVideo c6State).intervalsScheduled = 0 ∧
      (exportVideo c6State).downloadTriggered = false := by
  have h : hasNonemptyVideoTrack c6State = false := by rfl
  have hmain := c6_export_precondition c6State h
  exact ⟨h, hmain.1, hmain.2.2.2.2.2.2.2.1, hmain.2.2.2.2.2.2.2.2.1⟩

/-- Claim C7 is false as stated: for the vertical 9:16 format (canvas
1080x1920) a 1920x1080 source frame is drawn 1080 wide and 607.5 tall —
strictly inside the surface, with the whole source frame preserved — so the
vertical format is letterboxed like the widescreen one, not center-cropped to
fill. -/
theorem c7_counterexample :
    formatCanvasSize Format.vertical = (1080, 1920) ∧
      (renderFrameDrawRect 1920 1080 1080 1920).drawWidth = 1080 ∧
      (renderFrameDrawRect 1920 1080 1080 1920).drawHeight = 1215 / 2 ∧
      (renderFrameDrawRect 1920 1080 1080 1920).drawHeight < 1920 := by
  have hb : ((1920 : ℚ) / 1080 > 1080 / 1920) := by norm_num
  refine ⟨rfl, ?_, ?_, ?_⟩ <;>
    · unfold renderFrameDrawRect
      rw [if_pos hb]
      try norm_num

/-- Claim C7, amended: renderFrame applies one format-independent aspect-fit
policy: the frame is scaled to fit entirely inside the target surface
(letterboxed or pillarboxed, never cropped) — the drawn width and height
never exceed the canvas, one of them equals the canvas dimension, and the
frame is centered on both axes. -/
theorem c7_aspect_fit (vw vh cw ch : ℚ) (hvw : 0 < vw) (hvh : 0 < vh)
    (hcw : 0 < cw) (hch : 0 < ch) :
    (renderFrameDrawRect vw vh cw ch).drawWidth ≤ cw ∧
      (renderFrameDrawRect vw vh cw ch).drawHeight ≤ ch ∧
      ((renderFrameDrawRect vw vh cw ch).drawWidth = cw ∨
        (renderFrameDrawRect vw vh cw ch).drawHeight = ch) ∧
      (renderFrameDrawRect vw vh cw ch).drawX =
        (cw - (renderFrameDrawRect vw vh cw ch).drawWidth) / 2 ∧
      (renderFrameDrawRect vw vh cw ch).drawY =
        (ch - (renderFrameDrawRect vw vh cw ch).drawHeight) / 2 := by
  have hva : 0 < vw / vh := div_pos hvw hvh
  unfold renderFrameDrawRect
  by_cases h : vw / vh > cw / ch
  · rw [if_pos h]
    refine ⟨le_refl cw, ?_, Or.inl rfl, by norm_num, rfl⟩
    rw [div_le_iff₀ hva]
    have hlt : cw < (vw / vh) * ch := (div_lt_iff₀ hch).mp h
    rw [mul_comm] at hlt
    exact le_of_lt hlt
  · rw [if_neg h]
    push_neg at h
    refine ⟨?_, le_refl ch, Or.inr rfl, rfl, by norm_num⟩
    calc ch * (vw / vh) ≤ ch * (cw / ch) :=
          mul_le_mul_of_nonneg_left h hch.le
      _ = cw := mul_div_cancel₀ cw (ne_of_gt hch)

/-- Closed witness for the amended claim C7 at the counterexample
dimensions. -/
theorem c7_aspect_fit_witness :
    (0 : ℚ) < 1920 ∧ (0 : ℚ) < 1080 ∧
      (renderFrameDrawRect 1920 1080 1080 1920).drawWidth ≤ 1080 ∧
      (renderFrameDrawRect 1920 1080 1080 1920).drawHeight ≤ 1920 := by
  have hmain := c7_aspect_fit 1920 1080 1080 1920 (by norm_num) (by norm_num)
    (by norm_num) (by norm_num)
  exact ⟨by norm_num, by norm_num, hmain.1, hmain.2.1⟩

/-- The items stored on the reserved subtitle track (the track created as
subtitle-track by the editor shell). -/
def subtitleTrackItems (s : EditorState) : List MediaFile :=
  (s.tracks.filter fun t => t.id = "subtitle-track").flatMap fun t => t.items

/-- The caption-visible fields of a subtitle-track clip: id, text, timeline
start and duration. -/
def clipKey (i : MediaFile) : String × String × ℚ × ℚ :=
  (i.id, i.name, i.startTime, i.clipDuration)

/-- The clip-projected fields of a caption record. -/
def captionKey (c : Caption) : String × String × ℚ × ℚ :=
  (c.id, c.text, c.startTime, c.endTime - c.startTime)

/-- The sync invariant between the caption list and the reserved subtitle
track: the stored clips agree with the caption records on id, text, start
and duration. -/
def CaptionClipSync (s : EditorState) : Prop :=
  (subtitleTrackItems s).map clipKey = s.captions.map captionKey

theorem clipKey_captionMediaFile (d : ℚ) (c : Caption) :
    clipKey (captionMediaFile d c) = captionKey c := rfl

/-- A track list in reserved-layout form: one track carries the reserved
subtitle id and kind, every other track has neither. -/
def ReservedLayout (tracks : List Track) (ts₁ ts₂ : List Track)
    (st : Track) : Prop :=
  tracks = ts₁ ++ st :: ts₂ ∧ st.id = "subtitle-track" ∧
    st.kind = TrackKind.subtitle ∧
    (∀ t ∈ ts₁, t.kind ≠ TrackKind.subtitle ∧ t.id ≠ "subtitle-track") ∧
    (∀ t ∈ ts₂, t.kind ≠ TrackKind.subtitle ∧ t.id ≠ "subtitle-track")

theorem filter_reserved_eq {ts : List Track}
    (h : ∀ t ∈ ts, t.id ≠ "subtitle-track") :
    (ts.filter fun t => t.id = "subtitle-track") = [] := by
  rw [List.filter_eq_nil_iff]
  intro t ht
  simp [h t ht]

theorem subtitleTrackItems_layout {s : EditorState} {ts₁ ts₂ : List Track}
    {st : Track} (h : ReservedLayout s.tracks ts₁ ts₂ st) :
    subtitleTrackItems s = st.items := by
  obtain ⟨heq, hid, -, h1, h2⟩ := h
  unfold subtitleTrackItems
  rw [heq, List.filter_append, List.filter_cons,
    filter_reserved_eq (fun t ht => (h1 t ht).2),
    filter_reserved_eq (fun t ht => (h2 t ht).2)]
  simp [hid]

theorem map_key_filter (cid : String) (l₁ : List MediaFile)
    (l₂ : List Caption) (h : l₁.map clipKey = l₂.map captionKey) :
    ((l₁.filter fun i => i.id ≠ cid).map clipKey) =
      ((l₂.filter fun c => c.id ≠ cid).map captionKey) := by
  induction l₁ generalizing l₂ with
  | nil =>
      cases l₂ with
      | nil => rfl
      | cons c l₂ => simp at h
  | cons i l₁ ih =>
      cases l₂ with
      | nil => simp at h
      | cons c l₂ =>
          simp only [List.map_cons, List.cons.injEq] at h
          obtain ⟨hkey, htail⟩ := h
          have hid : i.id = c.id := congrArg Prod.fst hkey
          rw [List.filter_cons, List.filter_cons]
          by_cases hc : i.id = cid
          · have hc2 : c.id = cid := hid ▸ hc
            rw [if_neg (by simp [hc]), if_neg (by simp [hc2])]
            exact ih l₂ htail
          · have hc2 : ¬ c.id = cid := fun hcc => hc (hid.trans hcc)
            rw [if_pos (by simp [hc]), if_pos (by simp [hc2])]
            rw [List.map_cons, List.map_cons, hkey, ih l₂ htail]

/-- Claim C8 base state: the three standard empty tracks, current time 0. -/
def c8Base : EditorState := c6State

/-- Claim C8 counterexample: after creating a caption (which appends the
matching clip) and then editing its text through onCaptionUpdate, the
subtitle-track clip still carries the old text while the caption record has
the new one — the two representations are out of sync. -/
theorem c8_counterexample :
    CaptionClipSync (addCaption "c1" c8Base) ∧
      ¬ CaptionClipSync (onCaptionUpdate (addCaption "c1" c8Base) "c1"
        { text := some "Hello" }) := by
  constructor
  · rfl
  · intro h
    have := congrArg (fun l => l.map fun k => k.2.1) h
    simp only [CaptionClipSync] at h
    exact absurd h (by decide)

/-- Claim C8, amended: the caption list and the reserved subtitle-track clip
stay in sync under caption creation and under removal addressed to the
reserved subtitle track, but onCaptionUpdate edits only the Caption list and
leaves every track unchanged, so the stored clip goes stale after any
text, position or time update. -/
theorem c8_caption_sync :
    (∀ (s : EditorState) (cid : String) (u : CaptionUpdates),
        (onCaptionUpdate s cid u).tracks = s.tracks) ∧
      (∀ (s : EditorState) (ts₁ ts₂ : List Track) (st : Track)
          (newId : String), ReservedLayout s.tracks ts₁ ts₂ st →
          CaptionClipSync s → CaptionClipSync (addCaption newId s)) ∧
      (∀ (s : EditorState) (ts₁ ts₂ : List Track) (st : Track)
          (itemId : String), ReservedLayout s.tracks ts₁ ts₂ st →
          CaptionClipSync s →
          CaptionClipSync (handleItemRemoval s "subtitle-track" itemId)) := by
  refine ⟨fun s cid u => rfl, ?_, ?_⟩
  · intro s ts₁ ts₂ st newId hlay hsync
    obtain ⟨heq, hid, hkind, h1, h2⟩ := hlay
    have hstep : ReservedLayout (addCaption newId s).tracks
        (ts₁.map fun t => if t.kind = TrackKind.subtitle then
          { t with items := t.items ++
              [captionMediaFile s.duration
                { id := newId, text := "New Caption",
                  startTime := s.currentTime, endTime := s.currentTime + 2,
                  x := 50, y := 80 }] } else t)
        (ts₂.map fun t => if t.kind = TrackKind.subtitle then
          { t with items := t.items ++
              [captionMediaFile s.duration
                { id := newId, text := "New Caption",
                  startTime := s.currentTime, endTime := s.currentTime + 2,
                  x := 50, y := 80 }] } else t)
        { st with items := st.items ++
            [captionMediaFile s.duration
              { id := newId, text := "New Caption",
                startTime := s.currentTime, endTime := s.currentTime + 2,
                x := 50, y := 80 }] } := by
      refine ⟨?_, hid, hkind, ?_, ?_⟩
      · show (s.tracks.map _) = _
        rw [heq, List.map_append, List.map_cons, if_pos hkind]
      · intro t ht
        rcases List.mem_map.mp ht with ⟨t0, ht0, rfl⟩
        rw [if_neg (h1 t0 ht0).1]
        exact h1 t0 ht0
      · intro t ht
        rcases List.mem_map.mp ht with ⟨t0, ht0, rfl⟩
        rw [if_neg (h2 t0 ht0).1]
        exact h2 t0 ht0
    unfold CaptionClipSync
    rw [subtitleTrackItems_layout hstep]
    show (st.items ++ [captionMediaFile s.duration _]).map clipKey =
      (s.captions ++ [_]).map captionKey
    rw [List.map_append, List.map_append]
    unfold CaptionClipSync at hsync
    rw [subtitleTrackItems_layout ⟨heq, hid, hkind, h1, h2⟩] at hsync
    rw [hsync]
    rfl
  · intro s ts₁ ts₂ st itemId hlay hsync
    obtain ⟨heq, hid, hkind, h1, h2⟩ := hlay
    have hstep : ReservedLayout (handleItemRemoval s "subtitle-track"
        itemId).tracks
        (ts₁.map fun t => if t.id = "subtitle-track" then
          { t with items := t.items.filter fun item => item.id ≠ itemId }
          else t)
        (ts₂.map fun t => if t.id = "subtitle-track" then
          { t with items := t.items.filter fun item => item.id ≠ itemId }
          else t)
        { st with items := st.items.filter fun item => item.id ≠ itemId } := by
      refine ⟨?_, hid, hkind, ?_, ?_⟩
      · show (s.tracks.map _) = _
        rw [heq, List.map_append, List.map_cons, if_pos hid]
      · intro t ht
        rcases List.mem_map.mp ht with ⟨t0, ht0, rfl⟩
        rw [if_neg (h1 t0 ht0).2]
        exact h1 t0 ht0
      · intro t ht
        rcases List.mem_map.mp ht with ⟨t0, ht0, rfl⟩
        rw [if_neg (h2 t0 ht0).2]
        exact h2 t0 ht0
    unfold CaptionClipSync
    rw [subtitleTrackItems_layout hstep]
    show ((st.items.filter fun item => item.id ≠ itemId).map clipKey) =
      ((s.captions.filter fun caption => caption.id ≠ itemId).map captionKey)
    unfold CaptionClipSync at hsync
    rw [subtitleTrackItems_layout ⟨heq, hid, hkind, h1, h2⟩] at hsync
    exact map_key_filter itemId st.items s.captions hsync

/-- Closed witness for the amended claim C8 at the standard empty layout:
creation preserves sync and a removal addressed to the subtitle track
preserves sync. -/
theorem c8_caption_sync_witness :
    ReservedLayout c8Base.tracks
        [{ id := "video-track", kind := TrackKind.video, items := [] },
         { id := "audio-track", kind := TrackKind.audio, items := [] }] []
        { id := "subtitle-track", kind := TrackKind.subtitle, items := [] } ∧
      CaptionClipSync c8Base ∧
      CaptionClipSync (addCaption "c1" c8Base) ∧
      (onCaptionUpdate c8Base "c1" { x := some 10 }).tracks =
        c8Base.tracks := by
  have hlay : ReservedLayout c8Base.tracks
      [{ id := "video-track", kind := TrackKind.video, items := [] },
       { id := "audio-track", kind := TrackKind.audio, items := [] }] []
      { id := "subtitle-track", kind := TrackKind.subtitle, items := [] } := by
    refine ⟨rfl, rfl, rfl, ?_, ?_⟩ <;> · intro t ht; fin_cases ht <;> simp
  have hsync : CaptionClipSync c8Base := rfl
  exact ⟨hlay, hsync,
    c8_caption_sync.2.1 c8Base _ _ _ "c1" hlay hsync,
    c8_caption_sync.1 c8Base "c1" { x := some 10 }⟩

/-- Claim C9 counterexample state A: a caption record with id c1 and its
projected clip on the subtitle track; the video track is empty. -/
def c9StateA : EditorState :=
  addCaption "c1" c8Base

/-- Claim C9 counterexample clip B: a 100 second video clip at 0. -/
def c9ClipB : MediaFile :=
  { id := "m1", kind := MediaKind.video, url := "v.mp4",
    duration := 100, name := "v", startTime := 0,
    clipDuration := 100, trackPosition := 0 }

/-- Claim C9 counterexample state B: the 100 second clip on the video track,
with the stored duration consistent at 100. -/
def c9StateB : EditorState :=
  { tracks := [{ id := "video-track", kind := TrackKind.video,
                 items := [c9ClipB] },
               { id := "audio-track", kind := TrackKind.audio, items := [] },
               { id := "subtitle-track", kind := TrackKind.subtitle,
                 items := [] }]
    mediaFiles := [c9ClipB]
    captions := []
    currentTime := 0
    duration := 100
    isPlaying := false
    videoSrc := none
    videoPlaying := false
    activeAudioElements := []
    volume := 80
    format := Format.wide }

/-- Claim C9 is false as stated, in both halves.  First, removing an id that
is absent from the named track is not a no-op: passing a caption id with the
video-track id still deletes the caption record (the handler filters the
caption and media lists unconditionally).  Second, two identical calls do not
yield the state of one call: the deferred duration recomputation closes over
the pre-removal track list, so the first call stores the stale duration 100
and only the second call stores 60. -/
theorem c9_counterexample :
    ((handleItemRemoval c9StateA "video-track" "c1").captions ≠
        c9StateA.captions) ∧
      (handleItemRemoval c9StateB "video-track" "m1").duration = 100 ∧
      (handleItemRemoval (handleItemRemoval c9StateB "video-track" "m1")
          "video-track" "m1").duration = 60 ∧
      handleItemRemoval (handleItemRemoval c9StateB "video-track" "m1")
          "video-track" "m1" ≠
        handleItemRemoval c9StateB "video-track" "m1" := by
  have hd1 : (handleItemRemoval c9StateB "video-track" "m1").duration = 100 := by
    show calculateTimelineDuration c9StateB.tracks = 100
    norm_num [calculateTimelineDuration, c9StateB, c9ClipB, endTimeStep]
  have hd2 : (handleItemRemoval (handleItemRemoval c9StateB "video-track" "m1")
      "video-track" "m1").duration = 60 := by
    show calculateTimelineDuration
      (handleItemRemoval c9StateB "video-track" "m1").tracks = 60
    norm_num [calculateTimelineDuration, handleItemRemoval, c9StateB, c9ClipB,
      endTimeStep]
  refine ⟨?_, hd1, hd2, fun h => ?_⟩
  · simp [handleItemRemoval, c9StateA, addCaption, c8Base, c6State]
  · rw [h, hd1] at hd2
    norm_num at hd2

/-- The id iid appears nowhere in the state: not among any track items, not
among the media files, not among the captions. -/
def AbsentId (s : EditorState) (iid : String) : Prop :=
  (∀ t ∈ s.tracks, ∀ i ∈ t.items, i.id ≠ iid) ∧
    (∀ f ∈ s.mediaFiles, f.id ≠ iid) ∧ (∀ c ∈ s.captions, c.id ≠ iid)

theorem filter_ne_id_eq_self {α} (getId : α → String) (iid : String)
    (l : List α) (h : ∀ a ∈ l, getId a ≠ iid) :
    (l.filter fun a => getId a ≠ iid) = l := by
  rw [List.filter_eq_self]
  intro a ha
  simp [h a ha]

theorem map_eq_self_of {α} (f : α → α) (l : List α) (h : ∀ a ∈ l, f a = a) :
    l.map f = l := by
  induction l with
  | nil => rfl
  | cons a l ih =>
      rw [List.map_cons, h a (List.mem_cons_self a l),
        ih fun b hb => h b (List.mem_cons_of_mem a hb)]

/-- Claim C9, amended: handleItemRemoval filters the id out of the named
track, out of the media list and out of the caption list, and then stores
the timeline duration recomputed from the pre-call tracks.  Removing an id
absent from the whole state, with the stored duration already consistent, is
a no-op; and a second identical call changes nothing except the duration
field, which it updates to the timeline duration of the post-removal
tracks. -/
theorem c9_removal (s : EditorState) (trackId itemId : String) :
    (AbsentId s itemId → s.duration = calculateTimelineDuration s.tracks →
        handleItemRemoval s trackId itemId = s) ∧
      handleItemRemoval (handleItemRemoval s trackId itemId) trackId itemId =
        { handleItemRemoval s trackId itemId with
            duration := calculateTimelineDuration
              (handleItemRemoval s trackId itemId).tracks } := by
  constructor
  · rintro ⟨htr, hmf, hcp⟩ hdur
    have h1 : (s.tracks.map fun track =>
        if track.id = trackId then
          { track with items := track.items.filter fun item => item.id ≠ itemId }
        else track) = s.tracks := by
      refine map_eq_self_of _ _ fun t ht => ?_
      by_cases hid : t.id = trackId
      · rw [if_pos hid,
          filter_ne_id_eq_self MediaFile.id itemId t.items (htr t ht)]
      · rw [if_neg hid]
    have h2 := filter_ne_id_eq_self MediaFile.id itemId s.mediaFiles hmf
    have h3 := filter_ne_id_eq_self Caption.id itemId s.captions hcp
    unfold handleItemRemoval
    rw [h1, h2, h3, ← hdur]
  · have hfilt : ∀ {α} (getId : α → String) (l : List α),
        ((l.filter fun a => getId a ≠ itemId).filter
          fun a => getId a ≠ itemId) =
          l.filter fun a => getId a ≠ itemId := by
      intro α getId l
      rw [List.filter_eq_self]
      intro a ha
      have hpa := List.of_mem_filter ha
      exact hpa
    have h1 : ∀ (tl : List Track),
        ((tl.map fun track =>
          if track.id = trackId then
            { track with
                items := track.items.filter fun item => item.id ≠ itemId }
          else track).map fun track =>
          if track.id = trackId then
            { track with
                items := track.items.filter fun item => item.id ≠ itemId }
          else track) =
          tl.map fun track =>
            if track.id = trackId then
              { track with
                  items := track.items.filter fun item => item.id ≠ itemId }
            else track := by
      intro tl
      rw [List.map_map]
      refine List.map_congr_left fun t ht => ?_
      simp only [Function.comp_apply]
      by_cases hid : t.id = trackId
      · rw [if_pos hid, if_pos hid, hfilt MediaFile.id]
      · rw [if_neg hid, if_neg hid]
    simp only [handleItemRemoval]
    rw [h1, hfilt MediaFile.id, hfilt Caption.id]

/-- Claim C9 witness state: all-empty editor with consistent duration 60. -/
def c9WitnessState : EditorState := c6State

/-- Closed witness for the amended claim C9: removing an id absent from the
all-empty state is a no-op, and the double-removal equation holds there. -/
theorem c9_removal_witness :
    AbsentId c9WitnessState "zz" ∧
      c9WitnessState.duration =
        calculateTimelineDuration c9WitnessState.tracks ∧
      handleItemRemoval c9WitnessState "video-track" "zz" = c9WitnessState := by
  have habs : AbsentId c9WitnessState "zz" := by
    refine ⟨?_, ?_, ?_⟩
    · intro t ht i hi
      simp only [c9WitnessState, c6State] at ht
      fin_cases ht <;> simp at hi
    · intro f hf
      simp [c9WitnessState, c6State] at hf
    · intro c hc
      simp [c9WitnessState, c6State] at hc
  have hdur : c9WitnessState.duration =
      calculateTimelineDuration c9WitnessState.tracks := by
    show (60 : ℚ) = _
    norm_num [calculateTimelineDuration, c9WitnessState, c6State, endTimeStep]
  exact ⟨habs, hdur, (c9_removal c9WitnessState "video-track" "zz").1 habs hdur⟩

/-- Claim C10 scenario caption: window 2 to 4. -/
def c10Caption : Caption :=
  { id := "cap", text := "hi", startTime := 2, endTime := 4, x := 50, y := 80 }

/-- Claim C10: the visible caption set is exactly the captions whose window
contains the current time with both endpoints inclusive, and the caption
with window 2 to 4 is visible at 3, invisible at 4.01 and invisible at
1.99. -/
theorem c10_visible_captions :
    (∀ (captions : List Caption) (t : ℚ) (c : Caption),
        c ∈ visibleCaptions captions t ↔
          c ∈ captions ∧ c.startTime ≤ t ∧ t ≤ c.endTime) ∧
      c10Caption ∈ visibleCaptions [c10Caption] 3 ∧
      c10Caption ∉ visibleCaptions [c10Caption] (401 / 100) ∧
      c10Caption ∉ visibleCaptions [c10Caption] (199 / 100) := by
  have hmem : ∀ (captions : List Caption) (t : ℚ) (c : Caption),
      c ∈ visibleCaptions captions t ↔
        c ∈ captions ∧ c.startTime ≤ t ∧ t ≤ c.endTime := by
    intro captions t c
    unfold visibleCaptions
    rw [List.mem_filter]
    simp [ge_iff_le, and_assoc]
  refine ⟨hmem, ?_, ?_, ?_⟩
  · exact (hmem [c10Caption] 3 c10Caption).mpr
      ⟨List.mem_singleton.mpr rfl, by norm_num [c10Caption], by norm_num [c10Caption]⟩
  · intro h
    have := ((hmem [c10Caption] (401 / 100) c10Caption).mp h).2.2
    rw [show c10Caption.endTime = 4 from rfl] at this
    norm_num at this
  · intro h
    have := ((hmem [c10Caption] (199 / 100) c10Caption).mp h).2.1
    rw [show c10Caption.startTime = 2 from rfl] at this
    norm_num at this

/-- Closed witness instantiating claim C10 at the scenario caption: the
membership characterization applied at time 3. -/
theorem c10_visible_captions_witness :
    c10Caption ∈ [c10Caption] ∧ c10Caption.startTime ≤ 3 ∧
      (3 : ℚ) ≤ c10Caption.endTime ∧
      c10Caption ∈ visibleCaptions [c10Caption] 3 := by
  refine ⟨List.mem_singleton.mpr rfl, by norm_num [c10Caption],
    by norm_num [c10Caption], ?_⟩
  exact (c10_visible_captions.1 [c10Caption] 3 c10Caption).mpr
    ⟨List.mem_singleton.mpr rfl, by norm_num [c10Caption],
      by norm_num [c10Caption]⟩

end QuickCreatorStudio
